import Mathlib

/-!
Shallow embedding of the viewport transform engine of the image-pan-zoom
library (src/src/modules/utils.ts, core.ts, events.ts, animations.ts) over
the real numbers, together with proofs settling the frozen claims about it.
JavaScript numbers are modelled as reals; the one place where IEEE-754
non-finite values matter (division by a zero pinch distance) gets a
dedicated float-faithful model (`JSVal`) below.
-/

noncomputable section

open scoped Classical

/-- Resolved per-instance configuration record (core.ts lines 52-66):
caller options with the documented defaults filled in. -/
structure PZOptions where
  minScale : ℝ
  maxScale : ℝ
  initialScale : ℝ
  wheelZoomSpeed : ℝ
  boundsPadding : ℝ
  friction : ℝ
  maxSpeed : ℝ
  transition : Bool
  pinchSpeed : ℝ
  elastic : Bool
  elasticResistance : ℝ
  elasticBounce : ℝ
  minElasticDistance : ℝ
  enableRotation : Bool

/-- The default option values from the constructor (core.ts lines 52-66). -/
def defaultOptions : PZOptions where
  minScale := 1 / 2
  maxScale := 3
  initialScale := 1
  wheelZoomSpeed := 15 / 10000
  boundsPadding := 1 / 10
  friction := 92 / 100
  maxSpeed := 300
  transition := false
  pinchSpeed := 1
  elastic := true
  elasticResistance := 15 / 100
  elasticBounce := 3 / 10
  minElasticDistance := 5
  enableRotation := true

/-- The size/geometry oracle: the bounding client rect of the container
(left, top, width, height) and the intrinsic offset size of the content
(content.offsetWidth / offsetHeight), as read by getSizes (utils.ts
lines 34-40) and the event handlers. -/
structure PZGeometry where
  rectLeft : ℝ
  rectTop : ℝ
  rectWidth : ℝ
  rectHeight : ℝ
  rawW : ℝ
  rawH : ℝ

/-- Immutable per-instance environment: options plus static geometry. -/
structure PZEnv where
  options : PZOptions
  geom : PZGeometry

/-- The mutable fields of an ImagePanZoom instance that the transform
engine reads and writes (core.ts fields scale/x/y/rotation,
velocityX/velocityY/velocityScale, elasticX/elasticY). -/
structure PZState where
  scale : ℝ
  x : ℝ
  y : ℝ
  rotation : ℝ
  velocityX : ℝ
  velocityY : ℝ
  velocityScale : ℝ
  elasticX : ℝ
  elasticY : ℝ

/-- Container width contRect.width (utils.ts line 35). -/
def contW (env : PZEnv) : ℝ := env.geom.rectWidth

/-- Container height contRect.height (utils.ts line 36). -/
def contH (env : PZEnv) : ℝ := env.geom.rectHeight

/-- pad = Math.min(contW, contH) * boundsPadding (utils.ts line 37). -/
def pad (env : PZEnv) : ℝ := min (contW env) (contH env) * env.options.boundsPadding

/-- rad = rotation * PI / 180 (utils.ts line 42). -/
def radOf (st : PZState) : ℝ := st.rotation * Real.pi / 180

/-- rotatedW = rawW * scale * |cos rad| + rawH * scale * |sin rad|
(utils.ts lines 43-46). -/
def rotatedW (env : PZEnv) (st : PZState) : ℝ :=
  env.geom.rawW * st.scale * |Real.cos (radOf st)| +
    env.geom.rawH * st.scale * |Real.sin (radOf st)|

/-- rotatedH = rawW * scale * |sin rad| + rawH * scale * |cos rad|
(utils.ts lines 43-47). -/
def rotatedH (env : PZEnv) (st : PZState) : ℝ :=
  env.geom.rawW * st.scale * |Real.sin (radOf st)| +
    env.geom.rawH * st.scale * |Real.cos (radOf st)|

/-- fitsHorizontally = rotatedW <= contW (utils.ts line 49). -/
def fitsHorizontally (env : PZEnv) (st : PZState) : Prop := rotatedW env st ≤ contW env

/-- fitsVertically = rotatedH <= contH (utils.ts line 50). -/
def fitsVertically (env : PZEnv) (st : PZState) : Prop := rotatedH env st ≤ contH env

/-- maxX of getSizes: 0 when the content fits horizontally, else
rotatedW/2 - contW/2 + pad (utils.ts lines 53-61). -/
def sizesMaxX (env : PZEnv) (st : PZState) : ℝ :=
  if fitsHorizontally env st then 0 else rotatedW env st / 2 - contW env / 2 + pad env

/-- minX of getSizes: 0 when the content fits horizontally, else
-(rotatedW/2 - contW/2) - pad (utils.ts lines 53-61). -/
def sizesMinX (env : PZEnv) (st : PZState) : ℝ :=
  if fitsHorizontally env st then 0 else -(rotatedW env st / 2 - contW env / 2) - pad env

/-- maxY of getSizes (utils.ts lines 63-71). -/
def sizesMaxY (env : PZEnv) (st : PZState) : ℝ :=
  if fitsVertically env st then 0 else rotatedH env st / 2 - contH env / 2 + pad env

/-- minY of getSizes (utils.ts lines 63-71). -/
def sizesMinY (env : PZEnv) (st : PZState) : ℝ :=
  if fitsVertically env st then 0 else -(rotatedH env st / 2 - contH env / 2) - pad env

/-- calculateElasticOffset (utils.ts lines 150-157). -/
def calculateElasticOffset (env : PZEnv) (overshoot : ℝ) : ℝ :=
  if overshoot < env.options.minElasticDistance then
    overshoot * env.options.elasticResistance
  else
    overshoot * env.options.elasticResistance * (1 - Real.exp (-(overshoot / 100)))

/-- Translation bounds record returned by calculateBoundaries. -/
structure Bounds where
  minX : ℝ
  maxX : ℝ
  minY : ℝ
  maxY : ℝ

/-- calculateBoundaries (utils.ts lines 91-145).  The source mutates
instance.elasticX / elasticY on the elastic path; the embedding returns the
bounds together with the updated elastic offsets. -/
def calculateBoundaries (env : PZEnv) (st : PZState) (useElastic : Bool) :
    Bounds × ℝ × ℝ :=
  if !useElastic || !env.options.elastic then
    (⟨sizesMinX env st, sizesMaxX env st, sizesMinY env st, sizesMaxY env st⟩,
      st.elasticX, st.elasticY)
  else if fitsHorizontally env st ∧ fitsVertically env st then
    (⟨sizesMinX env st, sizesMaxX env st, sizesMinY env st, sizesMaxY env st⟩,
      st.elasticX, st.elasticY)
  else
    let currentX := st.x + st.elasticX
    let currentY := st.y + st.elasticY
    let eX :=
      if ¬ fitsHorizontally env st then
        if currentX < sizesMinX env st then
          -(calculateElasticOffset env (sizesMinX env st - currentX))
        else if sizesMaxX env st < currentX then
          calculateElasticOffset env (currentX - sizesMaxX env st)
        else st.elasticX * env.options.elasticResistance
      else st.elasticX
    let eY :=
      if ¬ fitsVertically env st then
        if currentY < sizesMinY env st then
          -(calculateElasticOffset env (sizesMinY env st - currentY))
        else if sizesMaxY env st < currentY then
          calculateElasticOffset env (currentY - sizesMaxY env st)
        else st.elasticY * env.options.elasticResistance
      else st.elasticY
    (⟨sizesMinX env st - eX, sizesMaxX env st - eX,
      sizesMinY env st - eY, sizesMaxY env st - eY⟩, eX, eY)

/-- clampPosition (utils.ts lines 159-166): clamps (nextX, nextY) into
calculateBoundaries; result is the clamped pair together with the elastic
offsets as updated by calculateBoundaries. -/
def clampPosition (env : PZEnv) (st : PZState) (nextX nextY : ℝ) (useElastic : Bool) :
    (ℝ × ℝ) × ℝ × ℝ :=
  let r := calculateBoundaries env st useElastic
  ((min r.1.maxX (max r.1.minX nextX), min r.1.maxY (max r.1.minY nextY)), r.2)

/-- clampScale (utils.ts lines 173-175):
Math.min(maxScale, Math.max(minScale, next)). -/
def clampScale (env : PZEnv) (next : ℝ) : ℝ :=
  min env.options.maxScale (max env.options.minScale next)

/-- The state effect of applyTransform (core.ts lines 108-148): re-clamp
(x, y) with the non-elastic bounds, then reset both elastic offsets to 0
(the remaining body only writes CSS). -/
def applyTransform (env : PZEnv) (st : PZState) : PZState :=
  let c := clampPosition env st st.x st.y false
  { st with x := c.1.1, y := c.1.2, elasticX := 0, elasticY := 0 }

/-- The recurring source pattern "const clamped = clampPosition(this, x, y,
false); this.x = clamped.x; this.y = clamped.y" (core.ts lines 279-281,
318-320, 401-403, 418-420, 455-457; events.ts lines 291-293, 523-525). -/
def clampXYHard (env : PZEnv) (st : PZState) : PZState :=
  let c := clampPosition env st st.x st.y false
  { st with x := c.1.1, y := c.1.2 }

/-- containerToImage (core.ts lines 347-360).  contentRectW is
content.getBoundingClientRect().width, an input from the geometry oracle
(likewise contentRectH); rotation does not occur in the source math. -/
def containerToImage (env : PZEnv) (st : PZState)
    (contentRectW contentRectH containerX containerY : ℝ) : ℝ × ℝ :=
  let centerX := env.geom.rectWidth / 2
  let centerY := env.geom.rectHeight / 2
  let relativeX := containerX - centerX - st.x
  let relativeY := containerY - centerY - st.y
  (relativeX / st.scale + contentRectW / 2 / st.scale,
   relativeY / st.scale + contentRectH / 2 / st.scale)

/-- imageToContainer (core.ts lines 365-378). -/
def imageToContainer (env : PZEnv) (st : PZState)
    (contentRectW contentRectH imageX imageY : ℝ) : ℝ × ℝ :=
  let centerX := env.geom.rectWidth / 2
  let centerY := env.geom.rectHeight / 2
  let relativeX := (imageX - contentRectW / 2 / st.scale) * st.scale
  let relativeY := (imageY - contentRectH / 2 / st.scale) * st.scale
  (centerX + st.x + relativeX, centerY + st.y + relativeY)

/-- worldToLocal (events.ts lines 103-129): convert a screen point into
content-local coordinates under the current transform — undo translation,
undo rotation by -rotation, divide by scale. -/
def worldToLocal (env : PZEnv) (st : PZState) (worldX worldY : ℝ) : ℝ × ℝ :=
  let containerCenterX := env.geom.rectLeft + env.geom.rectWidth / 2
  let containerCenterY := env.geom.rectTop + env.geom.rectHeight / 2
  let pointX := worldX - containerCenterX - st.x
  let pointY := worldY - containerCenterY - st.y
  let angle := -st.rotation * Real.pi / 180
  let c := Real.cos angle
  let s := Real.sin angle
  ((pointX * c - pointY * s) / st.scale, (pointX * s + pointY * c) / st.scale)

/-- applyAroundPivot (events.ts lines 132-170): recompute the translation
so that the content-local point under the pivot screen point stays at that
screen point while scale and rotation change; writes x, y, scale,
rotation. -/
def applyAroundPivot (env : PZEnv) (st : PZState)
    (pivotWorldX pivotWorldY newScale newRotation : ℝ) : PZState :=
  let containerCenterX := env.geom.rectLeft + env.geom.rectWidth / 2
  let containerCenterY := env.geom.rectTop + env.geom.rectHeight / 2
  let currentAngle := st.rotation * Real.pi / 180
  let currentCos := Real.cos currentAngle
  let currentSin := Real.sin currentAngle
  let pivotToContainerX := pivotWorldX - containerCenterX - st.x
  let pivotToContainerY := pivotWorldY - containerCenterY - st.y
  let localX := (pivotToContainerX * currentCos + pivotToContainerY * currentSin) / st.scale
  let localY := (-pivotToContainerX * currentSin + pivotToContainerY * currentCos) / st.scale
  let newAngle := newRotation * Real.pi / 180
  let newCos := Real.cos newAngle
  let newSin := Real.sin newAngle
  let newPivotToContainerX := (localX * newCos - localY * newSin) * newScale
  let newPivotToContainerY := (localX * newSin + localY * newCos) * newScale
  { st with
    x := pivotWorldX - containerCenterX - newPivotToContainerX,
    y := pivotWorldY - containerCenterY - newPivotToContainerY,
    scale := newScale,
    rotation := newRotation }

/-- The action of the published transform on a content-local point: the CSS
string written by applyTransform (core.ts line 147) is, with transform
origin at the content center, screen = containerCenter + (x, y) +
R(rotation) · scale · local — the exact forward map that applyAroundPivot
re-derives in events.ts lines 157-166. -/
def localToWorld (env : PZEnv) (st : PZState) (lx ly : ℝ) : ℝ × ℝ :=
  let containerCenterX := env.geom.rectLeft + env.geom.rectWidth / 2
  let containerCenterY := env.geom.rectTop + env.geom.rectHeight / 2
  let a := st.rotation * Real.pi / 180
  (containerCenterX + st.x + (lx * Real.cos a - ly * Real.sin a) * st.scale,
   containerCenterY + st.y + (lx * Real.sin a + ly * Real.cos a) * st.scale)

/-- Math.atan2(y, x): the argument of the complex number x + iy (and 0 at
the origin, as in JavaScript). -/
def jsAtan2 (y x : ℝ) : ℝ := Complex.arg ⟨x, y⟩

/-- getAngle (events.ts lines 85-87). -/
def getAngle (x1 y1 x2 y2 : ℝ) : ℝ := jsAtan2 (y2 - y1) (x2 - x1)

/-- getDistance = Math.hypot (events.ts lines 90-92). -/
def getDistance (x1 y1 x2 y2 : ℝ) : ℝ :=
  Real.sqrt ((x2 - x1) ^ 2 + (y2 - y1) ^ 2)

/-- Truncation toward zero, as used by the JavaScript % operator. -/
def jsTrunc (x : ℝ) : ℤ := if 0 ≤ x then ⌊x⌋ else ⌈x⌉

/-- The JavaScript remainder operator a % n: a - n * trunc(a / n), so the
result carries the sign of the dividend. -/
def jsRem (a n : ℝ) : ℝ := a - n * (jsTrunc (a / n) : ℝ)

/-- The rotation normalization in handleTouchMove (events.ts line 385):
rotation = ((rotation + 180) % 360) - 180. -/
def normalizeRotation (r : ℝ) : ℝ := jsRem (r + 180) 360 - 180

/-- The two-finger gesture session captured by handleTouchStart (events.ts
lines 317-340): start inter-finger distance and angle, start scale, start
rotation. -/
structure PinchSession where
  touchStartDistance : ℝ
  touchStartScale : ℝ
  touchStartAngle : ℝ
  initialRotation : ℝ

/-- The session built by the two-touch branch of handleTouchStart
(events.ts lines 330-339). -/
def touchStartPinch (st : PZState) (t1x t1y t2x t2y : ℝ) : PinchSession :=
  ⟨getDistance t1x t1y t2x t2y, st.scale, getAngle t1x t1y t2x t2y, st.rotation⟩

/-- The pinch branch of handleTouchMove (events.ts lines 343-401): scale
from the distance ratio, rotation from the angle delta when enableRotation,
pivot at the finger midpoint, applied via applyAroundPivot and then
applyTransform(false).  The real-valued division matches the source only
when touchStartDistance is nonzero: the source has no guard, and a zero
start distance makes it produce Infinity or NaN, which the reals cannot
represent — that degenerate path is modelled float-faithfully by
pinchScaleJS below. -/
def pinchMove (env : PZEnv) (st : PZState) (sess : PinchSession)
    (t1x t1y t2x t2y : ℝ) : PZState :=
  let currentDistance := getDistance t1x t1y t2x t2y
  let currentAngle := getAngle t1x t1y t2x t2y
  let scale := sess.touchStartScale * (currentDistance / sess.touchStartDistance) *
    env.options.pinchSpeed
  let clampedScale := clampScale env scale
  let rotation :=
    if env.options.enableRotation then
      normalizeRotation (sess.initialRotation +
        (currentAngle - sess.touchStartAngle) * (180 / Real.pi))
    else st.rotation
  let centerX := (t1x + t2x) / 2
  let centerY := (t1y + t2y) / 2
  applyTransform env (applyAroundPivot env st centerX centerY clampedScale rotation)

/-- handleWheel (events.ts lines 172-191): factor = 1 + (-deltaY ·
wheelZoomSpeed), rejected when non-positive; otherwise applyAroundPivot at
the cursor with the clamped target scale, then applyTransform(false). -/
def handleWheel (env : PZEnv) (st : PZState) (deltaY clientX clientY : ℝ) : PZState :=
  let delta := -deltaY * env.options.wheelZoomSpeed
  let factor := 1 + delta
  if factor ≤ 0 then st
  else
    let targetScale := clampScale env (st.scale * factor)
    applyTransform env (applyAroundPivot env st clientX clientY targetScale st.rotation)

/-- handleDoubleTap (events.ts lines 503-528), identical math to
handleDoubleClick (events.ts lines 271-296): zoom toward the tap point by
factor 1.5 capped at maxScale, clamp, applyTransform(true). -/
def doubleTap (env : PZEnv) (st : PZState) (clientX clientY : ℝ) : PZState :=
  let centerX := env.geom.rectWidth / 2
  let centerY := env.geom.rectHeight / 2
  let clickX := clientX - env.geom.rectLeft
  let clickY := clientY - env.geom.rectTop
  let targetScale := min (st.scale * (3 / 2)) env.options.maxScale
  let scaleRatio := targetScale / st.scale
  let localX := clickX - centerX - st.x
  let localY := clickY - centerY - st.y
  let newLocalX := localX * scaleRatio
  let newLocalY := localY * scaleRatio
  let st2 := { st with
    scale := targetScale,
    x := st.x + (localX - newLocalX),
    y := st.y + (localY - newLocalY) }
  applyTransform env (clampXYHard env st2)

/-- The stop condition of the kinetic animation (core.ts line 189):
|vx| < 0.5 ∧ |vy| < 0.5 ∧ |vScale| < 0.001. -/
def kineticStop (st : PZState) : Prop :=
  |st.velocityX| < 1 / 2 ∧ |st.velocityY| < 1 / 2 ∧ |st.velocityScale| < 1 / 1000

/-- One tick of animateKinetic (core.ts lines 188-213).  On the stop branch
the code calls stopAnimation, animateElasticReturn (which only schedules
later frames) and applyTransform(false); otherwise it integrates the
velocities, hard-limits scale, clamps position elastically, decays the
velocities by friction, and applies the transform. -/
def kineticTick (env : PZEnv) (st : PZState) : PZState :=
  if kineticStop st then applyTransform env st
  else
    let st1 := { st with
      x := st.x + st.velocityX,
      y := st.y + st.velocityY,
      scale := st.scale + st.velocityScale }
    let s2 := if st1.scale < env.options.minScale then env.options.minScale else st1.scale
    let s3 := if env.options.maxScale < s2 then env.options.maxScale else s2
    let st2 := { st1 with scale := s3 }
    let c := clampPosition env st2 st2.x st2.y true
    let st3 := { st2 with x := c.1.1, y := c.1.2, elasticX := c.2.1, elasticY := c.2.2 }
    let st4 := { st3 with
      velocityX := st3.velocityX * env.options.friction,
      velocityY := st3.velocityY * env.options.friction,
      velocityScale := st3.velocityScale * env.options.friction }
    applyTransform env st4

/-- The field assignments shared by the constructor (core.ts lines 68-71
with zero velocities and elastic offsets) and by reset (core.ts lines
258-266). -/
def resetState (env : PZEnv) : PZState :=
  ⟨env.options.initialScale, 0, 0, 0, 0, 0, 0, 0, 0⟩

/-- The state after construction: field initialization followed by the
applyTransform performed by init() (core.ts lines 68-94). -/
def initialState (env : PZEnv) : PZState := applyTransform env (resetState env)

/-- reset (core.ts lines 256-269): restore the initial fields, then
applyTransform(true). -/
def reset (env : PZEnv) (_st : PZState) : PZState := applyTransform env (resetState env)

/-- rotate (core.ts lines 274-284): rotation = (rotation + deg) % 360 with
the JavaScript remainder, re-clamp the translation, applyTransform. -/
def rotate (env : PZEnv) (st : PZState) (deg : ℝ) : PZState :=
  applyTransform env (clampXYHard env { st with rotation := jsRem (st.rotation + deg) 360 })

/-- setTransform (core.ts lines 301-324): overwrite only the supplied
fields (scale through clampScale), re-clamp the translation,
applyTransform. -/
def setTransform (env : PZEnv) (st : PZState)
    (oscale ox oy orot : Option ℝ) : PZState :=
  let st1 := match oscale with
    | some s => { st with scale := clampScale env s }
    | none => st
  let st2 := match ox with
    | some v => { st1 with x := v }
    | none => st1
  let st3 := match oy with
    | some v => { st2 with y := v }
    | none => st2
  let st4 := match orot with
    | some v => { st3 with rotation := v }
    | none => st3
  applyTransform env (clampXYHard env st4)

/-- moveTo (core.ts lines 391-407). -/
def moveTo (env : PZEnv) (st : PZState) (targetX targetY : ℝ) : PZState :=
  applyTransform env (clampXYHard env { st with
    x := targetX - env.geom.rectWidth / 2,
    y := targetY - env.geom.rectHeight / 2 })

/-- moveBy (core.ts lines 412-424). -/
def moveBy (env : PZEnv) (st : PZState) (deltaX deltaY : ℝ) : PZState :=
  applyTransform env (clampXYHard env { st with
    x := st.x + deltaX,
    y := st.y + deltaY })

/-- zoomTo (core.ts lines 429-461): pivot defaults to the container center;
no-op when the clamped target scale equals the current scale. -/
def zoomTo (env : PZEnv) (st : PZState) (scale : ℝ) (opx opy : Option ℝ) : PZState :=
  let targetX := opx.getD (env.geom.rectWidth / 2)
  let targetY := opy.getD (env.geom.rectHeight / 2)
  let prevScale := st.scale
  let nextScale := clampScale env scale
  if nextScale = prevScale then st
  else
    let centerX := env.geom.rectWidth / 2
    let centerY := env.geom.rectHeight / 2
    let localX := targetX - centerX - st.x
    let localY := targetY - centerY - st.y
    let k := nextScale / prevScale
    let st1 := { st with
      scale := nextScale,
      x := st.x + (localX - localX * k),
      y := st.y + (localY - localY * k) }
    applyTransform env (clampXYHard env st1)

/-- The states an instance can be in: the constructed state, closed under
the wheel, pinch, double-tap, kinetic-tick, reset, rotate, setTransform,
moveTo, moveBy and zoomTo operations.  Pinch moves are restricted to
sessions with a nonzero start inter-finger distance: a degenerate session
has no real-valued model — on it the unguarded source division writes
Infinity or NaN into the transform (see pinchScaleJS and the C6
analysis). -/
inductive Reachable (env : PZEnv) : PZState → Prop where
  | init : Reachable env (initialState env)
  | wheel : ∀ (st : PZState) (deltaY cx cy : ℝ), Reachable env st →
      Reachable env (handleWheel env st deltaY cx cy)
  | pinch : ∀ (st : PZState) (sess : PinchSession) (t1x t1y t2x t2y : ℝ),
      sess.touchStartDistance ≠ 0 → Reachable env st →
      Reachable env (pinchMove env st sess t1x t1y t2x t2y)
  | doubleTapOp : ∀ (st : PZState) (cx cy : ℝ), Reachable env st →
      Reachable env (doubleTap env st cx cy)
  | kinetic : ∀ (st : PZState), Reachable env st → Reachable env (kineticTick env st)
  | resetOp : ∀ (st : PZState), Reachable env st → Reachable env (reset env st)
  | rotateOp : ∀ (st : PZState) (deg : ℝ), Reachable env st →
      Reachable env (rotate env st deg)
  | setTransformOp : ∀ (st : PZState) (os ox oy orot : Option ℝ), Reachable env st →
      Reachable env (setTransform env st os ox oy orot)
  | moveToOp : ∀ (st : PZState) (tx ty : ℝ), Reachable env st →
      Reachable env (moveTo env st tx ty)
  | moveByOp : ∀ (st : PZState) (dx dy : ℝ), Reachable env st →
      Reachable env (moveBy env st dx dy)
  | zoomToOp : ∀ (st : PZState) (s : ℝ) (opx opy : Option ℝ), Reachable env st →
      Reachable env (zoomTo env st s opx opy)

/-- A JavaScript number as computed by the engine: a finite real, an
infinity, or NaN.  Used to model faithfully what the pinch code does when
the start inter-finger distance is zero. -/
inductive JSVal where
  | fin : ℝ → JSVal
  | posInf : JSVal
  | negInf : JSVal
  | nan : JSVal

/-- IEEE-754 style division as performed by the / operator. -/
def jsDiv : JSVal → JSVal → JSVal
  | .nan, _ => .nan
  | _, .nan => .nan
  | .fin a, .fin b =>
      if b = 0 then (if a = 0 then .nan else if 0 < a then .posInf else .negInf)
      else .fin (a / b)
  | .fin _, .posInf => .fin 0
  | .fin _, .negInf => .fin 0
  | .posInf, .fin b => if 0 ≤ b then .posInf else .negInf
  | .negInf, .fin b => if 0 ≤ b then .negInf else .posInf
  | .posInf, _ => .nan
  | .negInf, _ => .nan

/-- IEEE-754 style multiplication as performed by the * operator. -/
def jsMul : JSVal → JSVal → JSVal
  | .nan, _ => .nan
  | _, .nan => .nan
  | .fin a, .fin b => .fin (a * b)
  | .fin a, .posInf => if 0 < a then .posInf else if a < 0 then .negInf else .nan
  | .posInf, .fin a => if 0 < a then .posInf else if a < 0 then .negInf else .nan
  | .fin a, .negInf => if 0 < a then .negInf else if a < 0 then .posInf else .nan
  | .negInf, .fin a => if 0 < a then .negInf else if a < 0 then .posInf else .nan
  | .posInf, .posInf => .posInf
  | .posInf, .negInf => .negInf
  | .negInf, .posInf => .negInf
  | .negInf, .negInf => .posInf

/-- Math.max on JavaScript numbers (NaN absorbs). -/
def jsMax : JSVal → JSVal → JSVal
  | .nan, _ => .nan
  | _, .nan => .nan
  | .fin a, .fin b => .fin (max a b)
  | .posInf, _ => .posInf
  | _, .posInf => .posInf
  | .fin a, .negInf => .fin a
  | .negInf, b => b

/-- Math.min on JavaScript numbers (NaN absorbs). -/
def jsMin : JSVal → JSVal → JSVal
  | .nan, _ => .nan
  | _, .nan => .nan
  | .fin a, .fin b => .fin (min a b)
  | .negInf, _ => .negInf
  | _, .negInf => .negInf
  | .fin a, .posInf => .fin a
  | .posInf, b => b

/-- Float-faithful model of the new-scale computation of the pinch branch
of handleTouchMove (events.ts lines 367-379) composed with clampScale
(utils.ts lines 173-175): touchStartScale * (currentDistance /
touchStartDistance) * pinchSpeed, then Math.min(maxScale, Math.max(minScale,
·)).  The division is the only operation able to produce a non-finite value
from finite inputs; there is no epsilon guard in the source. -/
def pinchScaleJS (env : PZEnv) (touchStartScale touchStartDistance : ℝ)
    (t1x t1y t2x t2y : ℝ) : JSVal :=
  let currentDistance := getDistance t1x t1y t2x t2y
  let ratio := jsDiv (.fin currentDistance) (.fin touchStartDistance)
  let scale := jsMul (jsMul (.fin touchStartScale) ratio) (.fin env.options.pinchSpeed)
  jsMin (.fin env.options.maxScale) (jsMax (.fin env.options.minScale) scale)

/-- The environment used as a concrete input in witnesses: default options,
a 200x100 container at (0, 0), 50x50 intrinsic content. -/
def envW : PZEnv := ⟨defaultOptions, ⟨0, 0, 200, 100, 50, 50⟩⟩

/-- A concrete state with scale 1, translation (5, -3), rotation 30. -/
def stW : PZState := ⟨1, 5, -3, 30, 0, 0, 0, 0, 0⟩

/-- Concrete input refuting C3: 100x100 container, 50x300 content — at
scale 1 and rotation 0 the content fits horizontally but not vertically —
with a stale elastic offset elasticX = 5. -/
def envC3 : PZEnv := ⟨defaultOptions, ⟨0, 0, 100, 100, 50, 300⟩⟩

/-- State with elasticX = 5 for the C3 counterexample. -/
def stC3 : PZState := ⟨1, 0, 0, 0, 0, 0, 0, 5, 0⟩

/-- Options with initialScale = 10 and everything else default (so
maxScale = 3), refuting C4. -/
def optionsBad : PZOptions := { defaultOptions with initialScale := 10 }

/-- Environment for the C4 counterexample. -/
def envBad : PZEnv := ⟨optionsBad, ⟨0, 0, 200, 100, 50, 50⟩⟩

/-- Pinch session refuting C5: start rotation 180, fingers at (0,0) and
(10,0), unchanged at the move (angle delta 0). -/
def sessC5 : PinchSession := ⟨getDistance 0 0 10 0, 1, getAngle 0 0 10 0, 180⟩

/-- Pinch session for the C5 witness: start rotation 30, same fingers. -/
def sessW : PinchSession := ⟨getDistance 0 0 10 0, 1, getAngle 0 0 10 0, 30⟩

/-- Kinetic state with velocity (10, 0, 0) for the C8 witness. -/
def s8a : PZState := ⟨1, 0, 0, 0, 10, 0, 0, 0, 0⟩

/-- Kinetic state with velocity (0, 10, 0) for the C8 counterexample: the
x-velocity magnitude sequence is constantly 0, not strictly decreasing. -/
def s8b : PZState := ⟨1, 0, 0, 0, 0, 10, 0, 0, 0⟩

/- ------------------------------------------------------------------ -/
/- Theorems. -/
/- ------------------------------------------------------------------ -/

/-- Projection facts for applyTransform: it only rewrites x, y and the
elastic offsets. -/
@[simp] theorem applyTransform_scale (env : PZEnv) (st : PZState) :
    (applyTransform env st).scale = st.scale := rfl

@[simp] theorem applyTransform_rotation (env : PZEnv) (st : PZState) :
    (applyTransform env st).rotation = st.rotation := rfl

@[simp] theorem applyTransform_velocityX (env : PZEnv) (st : PZState) :
    (applyTransform env st).velocityX = st.velocityX := rfl

@[simp] theorem applyTransform_velocityY (env : PZEnv) (st : PZState) :
    (applyTransform env st).velocityY = st.velocityY := rfl

@[simp] theorem applyTransform_velocityScale (env : PZEnv) (st : PZState) :
    (applyTransform env st).velocityScale = st.velocityScale := rfl

@[simp] theorem applyTransform_elasticX (env : PZEnv) (st : PZState) :
    (applyTransform env st).elasticX = 0 := rfl

@[simp] theorem applyTransform_elasticY (env : PZEnv) (st : PZState) :
    (applyTransform env st).elasticY = 0 := rfl

/-- Projection facts for applyAroundPivot. -/
@[simp] theorem applyAroundPivot_scale (env : PZEnv) (st : PZState)
    (px py ns nr : ℝ) : (applyAroundPivot env st px py ns nr).scale = ns := rfl

@[simp] theorem applyAroundPivot_rotation (env : PZEnv) (st : PZState)
    (px py ns nr : ℝ) : (applyAroundPivot env st px py ns nr).rotation = nr := rfl

/-- Projection facts for clampXYHard: it only rewrites x and y. -/
@[simp] theorem clampXYHard_scale (env : PZEnv) (st : PZState) :
    (clampXYHard env st).scale = st.scale := rfl

@[simp] theorem clampXYHard_rotation (env : PZEnv) (st : PZState) :
    (clampXYHard env st).rotation = st.rotation := rfl

/-- Helper: clampScale lands in [minScale, maxScale] when the range is
non-degenerate. -/
theorem clampScale_mem (env : PZEnv)
    (h : env.options.minScale ≤ env.options.maxScale) (s : ℝ) :
    env.options.minScale ≤ clampScale env s ∧ clampScale env s ≤ env.options.maxScale :=
  ⟨le_min h (le_max_left _ _), min_le_left _ _⟩

/-- Claim C9: under minScale ≤ maxScale, clampScale(s) always lands in
[minScale, maxScale], and clampScale(s) = s whenever s is already in
range. -/
theorem clampScale_range_identity (env : PZEnv) (s : ℝ)
    (h : env.options.minScale ≤ env.options.maxScale) :
    env.options.minScale ≤ clampScale env s ∧
      clampScale env s ≤ env.options.maxScale ∧
      (env.options.minScale ≤ s → s ≤ env.options.maxScale → clampScale env s = s) := by
  unfold clampScale
  refine ⟨le_min h (le_max_left _ _), min_le_left _ _, fun h1 h2 => ?_⟩
  rw [max_eq_right h1, min_eq_right h2]

/-- Witness for C9 at the concrete input s = 2 under envW. -/
theorem clampScale_range_identity_witness :
    envW.options.minScale ≤ envW.options.maxScale ∧
      (envW.options.minScale ≤ clampScale envW 2 ∧
        clampScale envW 2 ≤ envW.options.maxScale ∧
        (envW.options.minScale ≤ 2 → (2:ℝ) ≤ envW.options.maxScale →
          clampScale envW 2 = 2)) := by
  refine ⟨by norm_num [envW, defaultOptions], ?_⟩
  exact clampScale_range_identity envW 2 (by norm_num [envW, defaultOptions])

/-- Claim C2: at any fixed transform with scale > 0 and fixed geometry,
containerToImage and imageToContainer are mutual inverses on every point
(the source math ignores rotation, so this holds at any rotation). -/
theorem containerToImage_imageToContainer_inverses (env : PZEnv) (st : PZState)
    (crw crh px py qx qy : ℝ) (hs : 0 < st.scale) :
    imageToContainer env st crw crh
        (containerToImage env st crw crh px py).1
        (containerToImage env st crw crh px py).2 = (px, py) ∧
      containerToImage env st crw crh
        (imageToContainer env st crw crh qx qy).1
        (imageToContainer env st crw crh qx qy).2 = (qx, qy) := by
  have hs0 : st.scale ≠ 0 := ne_of_gt hs
  unfold containerToImage imageToContainer
  constructor <;> (apply Prod.ext <;> (simp only []; field_simp; ring))

/-- Witness for C2 at the concrete state stW (scale 1, rotation 30) and the
concrete points (7, 9) and (-4, 11). -/
theorem containerToImage_imageToContainer_inverses_witness :
    0 < stW.scale ∧
      (imageToContainer envW stW 50 50
          (containerToImage envW stW 50 50 7 9).1
          (containerToImage envW stW 50 50 7 9).2 = (7, 9) ∧
        containerToImage envW stW 50 50
          (imageToContainer envW stW 50 50 (-4) 11).1
          (imageToContainer envW stW 50 50 (-4) 11).2 = (-4, 11)) := by
  refine ⟨by norm_num [stW], ?_⟩
  exact containerToImage_imageToContainer_inverses envW stW 50 50 7 9 (-4) 11
    (by norm_num [stW])

/-- Claim C1: pivot preservation.  For any current state with scale > 0,
any pivot screen point P and any target (newScale > 0, newRotation), the
content-local point that lay under P before applyAroundPivot is mapped by
the new transform (new scale, rotation, translation) back to exactly P
(over the reals the identity is exact, so it holds a fortiori within
floating-point tolerance). -/
theorem applyAroundPivot_pivot_stationary (env : PZEnv) (st : PZState)
    (px py ns nr : ℝ) (hs : 0 < st.scale) (hns : 0 < ns) :
    localToWorld env (applyAroundPivot env st px py ns nr)
        (worldToLocal env st px py).1 (worldToLocal env st px py).2 = (px, py) := by
  unfold localToWorld applyAroundPivot worldToLocal
  apply Prod.ext <;>
    simp only [neg_mul, neg_div, Real.cos_neg, Real.sin_neg] <;> ring

/-- Helper: the non-elastic variant returns the plain getSizes bounds and
leaves the elastic offsets untouched. -/
theorem calcBounds_false (env : PZEnv) (st : PZState) :
    calculateBoundaries env st false =
      (⟨sizesMinX env st, sizesMaxX env st, sizesMinY env st, sizesMaxY env st⟩,
        st.elasticX, st.elasticY) := rfl

/-- Helper: with the elastic option disabled the elastic variant also
returns the plain bounds. -/
theorem calcBounds_elastic_off (env : PZEnv) (st : PZState)
    (h : env.options.elastic = false) :
    calculateBoundaries env st true =
      (⟨sizesMinX env st, sizesMaxX env st, sizesMinY env st, sizesMaxY env st⟩,
        st.elasticX, st.elasticY) := by
  simp [calculateBoundaries, h]

/-- Helper: when the content fits on both axes the elastic variant returns
the plain bounds unchanged. -/
theorem calcBounds_fits_both (env : PZEnv) (st : PZState)
    (hx : fitsHorizontally env st) (hy : fitsVertically env st) :
    calculateBoundaries env st true =
      (⟨sizesMinX env st, sizesMaxX env st, sizesMinY env st, sizesMaxY env st⟩,
        st.elasticX, st.elasticY) := by
  by_cases he : env.options.elastic
  · simp [calculateBoundaries, he, hx, hy]
  · exact calcBounds_elastic_off env st (by simpa using he)

/-- Helper: on the elastic path with the x-axis fitting, the elastic
x-offset is left as it was and the returned x-bounds are the plain bounds
shifted by it. -/
theorem calcBounds_fitsX_not_fitsY (env : PZEnv) (st : PZState)
    (he : env.options.elastic = true)
    (hx : fitsHorizontally env st) (hy : ¬ fitsVertically env st) :
    (calculateBoundaries env st true).1.minX = sizesMinX env st - st.elasticX ∧
      (calculateBoundaries env st true).1.maxX = sizesMaxX env st - st.elasticX := by
  constructor <;> simp [calculateBoundaries, he, hx, hy]

/-- Helper: mirror of the previous fact for the y-axis. -/
theorem calcBounds_fitsY_not_fitsX (env : PZEnv) (st : PZState)
    (he : env.options.elastic = true)
    (hy : fitsVertically env st) (hx : ¬ fitsHorizontally env st) :
    (calculateBoundaries env st true).1.minY = sizesMinY env st - st.elasticY ∧
      (calculateBoundaries env st true).1.maxY = sizesMaxY env st - st.elasticY := by
  constructor <;> simp [calculateBoundaries, he, hx, hy]

/-- Helper: a degenerate interval clamps everything to its single point. -/
theorem min_max_self (a t : ℝ) : min a (max a t) = a :=
  min_eq_left (le_max_left _ _)

/-- Claim C3 (amended): when the rotated footprint fits the container on an
axis, the non-elastic clampPosition returns exactly 0 on that axis for any
input, and so does the elastic variant when the elastic option is off or
the other axis also fits; but when the other axis does not fit, the elastic
variant returns 0 minus the current elastic offset of the fitting axis
(the stale offset shifts even the collapsed bounds), so it returns 0 there
only when that offset is 0. -/
theorem clampPosition_fitting_axis_amended (env : PZEnv) (st : PZState) (nx ny : ℝ) :
    (fitsHorizontally env st →
      ((clampPosition env st nx ny false).1.1 = 0 ∧
        (env.options.elastic = false → (clampPosition env st nx ny true).1.1 = 0) ∧
        (fitsVertically env st → (clampPosition env st nx ny true).1.1 = 0) ∧
        (env.options.elastic = true → ¬ fitsVertically env st →
          (clampPosition env st nx ny true).1.1 = -st.elasticX))) ∧
    (fitsVertically env st →
      ((clampPosition env st nx ny false).1.2 = 0 ∧
        (env.options.elastic = false → (clampPosition env st nx ny true).1.2 = 0) ∧
        (fitsHorizontally env st → (clampPosition env st nx ny true).1.2 = 0) ∧
        (env.options.elastic = true → ¬ fitsHorizontally env st →
          (clampPosition env st nx ny true).1.2 = -st.elasticY))) := by
  constructor
  · intro hx
    have hminx : sizesMinX env st = 0 := if_pos hx
    have hmaxx : sizesMaxX env st = 0 := if_pos hx
    refine ⟨?_, ?_, ?_, ?_⟩
    · show min (calculateBoundaries env st false).1.maxX
        (max (calculateBoundaries env st false).1.minX nx) = 0
      rw [calcBounds_false]
      simpa [hminx, hmaxx] using min_max_self 0 nx
    · intro he
      show min (calculateBoundaries env st true).1.maxX
        (max (calculateBoundaries env st true).1.minX nx) = 0
      rw [calcBounds_elastic_off env st he]
      simpa [hminx, hmaxx] using min_max_self 0 nx
    · intro hy
      show min (calculateBoundaries env st true).1.maxX
        (max (calculateBoundaries env st true).1.minX nx) = 0
      rw [calcBounds_fits_both env st hx hy]
      simpa [hminx, hmaxx] using min_max_self 0 nx
    · intro he hy
      show min (calculateBoundaries env st true).1.maxX
        (max (calculateBoundaries env st true).1.minX nx) = -st.elasticX
      obtain ⟨h1, h2⟩ := calcBounds_fitsX_not_fitsY env st he hx hy
      rw [h1, h2, hminx, hmaxx]
      simpa using min_max_self (-st.elasticX) nx
  · intro hy
    have hminy : sizesMinY env st = 0 := if_pos hy
    have hmaxy : sizesMaxY env st = 0 := if_pos hy
    refine ⟨?_, ?_, ?_, ?_⟩
    · show min (calculateBoundaries env st false).1.maxY
        (max (calculateBoundaries env st false).1.minY ny) = 0
      rw [calcBounds_false]
      simpa [hminy, hmaxy] using min_max_self 0 ny
    · intro he
      show min (calculateBoundaries env st true).1.maxY
        (max (calculateBoundaries env st true).1.minY ny) = 0
      rw [calcBounds_elastic_off env st he]
      simpa [hminy, hmaxy] using min_max_self 0 ny
    · intro hx
      show min (calculateBoundaries env st true).1.maxY
        (max (calculateBoundaries env st true).1.minY ny) = 0
      rw [calcBounds_fits_both env st hx hy]
      simpa [hminy, hmaxy] using min_max_self 0 ny
    · intro he hx
      show min (calculateBoundaries env st true).1.maxY
        (max (calculateBoundaries env st true).1.minY ny) = -st.elasticY
      obtain ⟨h1, h2⟩ := calcBounds_fitsY_not_fitsX env st he hy hx
      rw [h1, h2, hminy, hmaxy]
      simpa using min_max_self (-st.elasticY) ny

/-- Counterexample to C3 as stated: in envC3/stC3 the content fits
horizontally, yet the elastic variant of clampPosition does not return 0 on
the x-axis (it returns -elasticX = -5), because the stale elastic offset
shifts the collapsed bounds. -/
theorem clampPosition_fitting_axis_counterexample :
    fitsHorizontally envC3 stC3 ∧
      (clampPosition envC3 stC3 0 0 true).1.1 ≠ 0 := by
  have hrad : radOf stC3 = 0 := by simp [radOf, stC3]
  have hw : rotatedW envC3 stC3 = 50 := by
    rw [rotatedW, hrad]
    simp only [Real.cos_zero, Real.sin_zero, abs_one, abs_zero]
    norm_num [envC3, stC3]
  have hh : rotatedH envC3 stC3 = 300 := by
    rw [rotatedH, hrad]
    simp only [Real.cos_zero, Real.sin_zero, abs_one, abs_zero]
    norm_num [envC3, stC3]
  have hx : fitsHorizontally envC3 stC3 := by
    rw [fitsHorizontally, hw]; norm_num [contW, envC3]
  have hy : ¬ fitsVertically envC3 stC3 := by
    rw [fitsVertically, hh]; norm_num [contH, envC3]
  have he : envC3.options.elastic = true := rfl
  refine ⟨hx, ?_⟩
  have hminx : sizesMinX envC3 stC3 = 0 := if_pos hx
  have hmaxx : sizesMaxX envC3 stC3 = 0 := if_pos hx
  have hval : (clampPosition envC3 stC3 0 0 true).1.1 = -stC3.elasticX := by
    show min (calculateBoundaries envC3 stC3 true).1.maxX
      (max (calculateBoundaries envC3 stC3 true).1.minX 0) = -stC3.elasticX
    obtain ⟨h1, h2⟩ := calcBounds_fitsX_not_fitsY envC3 stC3 he hx hy
    rw [h1, h2, hminx, hmaxx]
    simpa using min_max_self (-stC3.elasticX) 0
  rw [hval]
  norm_num [stC3]

/-- Witness for the amended C3 at envC3/stC3: the x-axis fits and the
non-elastic clamp is 0 while the elastic clamp is -elasticX = -5. -/
theorem clampPosition_fitting_axis_amended_witness :
    fitsHorizontally envC3 stC3 ∧ envC3.options.elastic = true ∧
      ¬ fitsVertically envC3 stC3 ∧
      (clampPosition envC3 stC3 7 8 false).1.1 = 0 ∧
      (clampPosition envC3 stC3 7 8 true).1.1 = -stC3.elasticX := by
  have hrad : radOf stC3 = 0 := by simp [radOf, stC3]
  have hw : rotatedW envC3 stC3 = 50 := by
    rw [rotatedW, hrad]
    simp only [Real.cos_zero, Real.sin_zero, abs_one, abs_zero]
    norm_num [envC3, stC3]
  have hh : rotatedH envC3 stC3 = 300 := by
    rw [rotatedH, hrad]
    simp only [Real.cos_zero, Real.sin_zero, abs_one, abs_zero]
    norm_num [envC3, stC3]
  have hx : fitsHorizontally envC3 stC3 := by
    rw [fitsHorizontally, hw]; norm_num [contW, envC3]
  have hy : ¬ fitsVertically envC3 stC3 := by
    rw [fitsVertically, hh]; norm_num [contH, envC3]
  have h := (clampPosition_fitting_axis_amended envC3 stC3 7 8).1 hx
  exact ⟨hx, rfl, hy, h.1, h.2.2.2 rfl hy⟩

/-- Witness for C1: concrete instance envW / stW with pivot (10, 20),
new scale 2, new rotation 45. -/
theorem applyAroundPivot_pivot_stationary_witness :
    0 < stW.scale ∧ 0 < (2:ℝ) ∧
      localToWorld envW (applyAroundPivot envW stW 10 20 2 45)
        (worldToLocal envW stW 10 20).1 (worldToLocal envW stW 10 20).2 = (10, 20) := by
  refine ⟨by norm_num [stW], by norm_num, ?_⟩
  exact applyAroundPivot_pivot_stationary envW stW 10 20 2 45
    (by norm_num [stW]) (by norm_num)

end

/-- Helper: with a nonnegative padding the hard x-bounds are a nonempty
interval around 0. -/
theorem sizesMinX_le_sizesMaxX (env : PZEnv) (st : PZState) (hpad : 0 ≤ pad env) :
    sizesMinX env st ≤ sizesMaxX env st := by
  unfold sizesMinX sizesMaxX
  split_ifs with h
  · exact le_refl 0
  · unfold fitsHorizontally at h
    push_neg at h
    linarith

/-- Helper: mirror of the previous fact for the y-axis. -/
theorem sizesMinY_le_sizesMaxY (env : PZEnv) (st : PZState) (hpad : 0 ≤ pad env) :
    sizesMinY env st ≤ sizesMaxY env st := by
  unfold sizesMinY sizesMaxY
  split_ifs with h
  · exact le_refl 0
  · unfold fitsVertically at h
    push_neg at h
    linarith

/-- Helper: the hard lower x-bound is never positive. -/
theorem sizesMinX_nonpos (env : PZEnv) (st : PZState) (hpad : 0 ≤ pad env) :
    sizesMinX env st ≤ 0 := by
  unfold sizesMinX
  split_ifs with h
  · exact le_refl 0
  · unfold fitsHorizontally at h
    push_neg at h
    linarith

/-- Helper: the hard upper x-bound is never negative. -/
theorem sizesMaxX_nonneg (env : PZEnv) (st : PZState) (hpad : 0 ≤ pad env) :
    0 ≤ sizesMaxX env st := by
  unfold sizesMaxX
  split_ifs with h
  · exact le_refl 0
  · unfold fitsHorizontally at h
    push_neg at h
    linarith

/-- Helper: the hard lower y-bound is never positive. -/
theorem sizesMinY_nonpos (env : PZEnv) (st : PZState) (hpad : 0 ≤ pad env) :
    sizesMinY env st ≤ 0 := by
  unfold sizesMinY
  split_ifs with h
  · exact le_refl 0
  · unfold fitsVertically at h
    push_neg at h
    linarith

/-- Helper: the hard upper y-bound is never negative. -/
theorem sizesMaxY_nonneg (env : PZEnv) (st : PZState) (hpad : 0 ≤ pad env) :
    0 ≤ sizesMaxY env st := by
  unfold sizesMaxY
  split_ifs with h
  · exact le_refl 0
  · unfold fitsVertically at h
    push_neg at h
    linarith

/-- Claim C7: every applyTransform call first re-clamps (x, y) with the
non-elastic (hard) bounds and then zeroes both elastic offsets, so every
published state has its translation inside the hard bounds (here under the
mild assumption that the computed padding is nonnegative, which makes the
hard bounds a nonempty interval) and elasticX = elasticY = 0. -/
theorem applyTransform_publishes_hard_clamped (env : PZEnv) (st : PZState)
    (hpad : 0 ≤ pad env) :
    (applyTransform env st).x =
        min (sizesMaxX env st) (max (sizesMinX env st) st.x) ∧
      (applyTransform env st).y =
        min (sizesMaxY env st) (max (sizesMinY env st) st.y) ∧
      sizesMinX env st ≤ (applyTransform env st).x ∧
      (applyTransform env st).x ≤ sizesMaxX env st ∧
      sizesMinY env st ≤ (applyTransform env st).y ∧
      (applyTransform env st).y ≤ sizesMaxY env st ∧
      (applyTransform env st).elasticX = 0 ∧
      (applyTransform env st).elasticY = 0 := by
  have hxx := sizesMinX_le_sizesMaxX env st hpad
  have hyy := sizesMinY_le_sizesMaxY env st hpad
  refine ⟨rfl, rfl, ?_, ?_, ?_, ?_, rfl, rfl⟩
  · exact le_min hxx (le_max_left _ _)
  · exact min_le_left _ _
  · exact le_min hyy (le_max_left _ _)
  · exact min_le_left _ _

/-- Witness for C7 at the concrete instance envW / stW. -/
theorem applyTransform_publishes_hard_clamped_witness :
    0 ≤ pad envW ∧
      ((applyTransform envW stW).x =
          min (sizesMaxX envW stW) (max (sizesMinX envW stW) stW.x) ∧
        (applyTransform envW stW).y =
          min (sizesMaxY envW stW) (max (sizesMinY envW stW) stW.y) ∧
        sizesMinX envW stW ≤ (applyTransform envW stW).x ∧
        (applyTransform envW stW).x ≤ sizesMaxX envW stW ∧
        sizesMinY envW stW ≤ (applyTransform envW stW).y ∧
        (applyTransform envW stW).y ≤ sizesMaxY envW stW ∧
        (applyTransform envW stW).elasticX = 0 ∧
        (applyTransform envW stW).elasticY = 0) := by
  have hpad : 0 ≤ pad envW := by
    norm_num [pad, contW, contH, envW, defaultOptions]
  exact ⟨hpad, applyTransform_publishes_hard_clamped envW stW hpad⟩

/-- Claim C10: for every prior state, reset() leaves the instance with
scale = initialScale, x = 0, y = 0 and rotation = 0 (under the mild
assumption of a nonnegative computed padding, which keeps 0 inside the
hard bounds through the trailing applyTransform). -/
theorem reset_initial_state (env : PZEnv) (st : PZState) (hpad : 0 ≤ pad env) :
    (reset env st).scale = env.options.initialScale ∧
      (reset env st).x = 0 ∧ (reset env st).y = 0 ∧
      (reset env st).rotation = 0 := by
  refine ⟨rfl, ?_, ?_, rfl⟩
  · show min (sizesMaxX env (resetState env))
      (max (sizesMinX env (resetState env)) 0) = 0
    rw [max_eq_right (sizesMinX_nonpos env (resetState env) hpad),
      min_eq_right (sizesMaxX_nonneg env (resetState env) hpad)]
  · show min (sizesMaxY env (resetState env))
      (max (sizesMinY env (resetState env)) 0) = 0
    rw [max_eq_right (sizesMinY_nonpos env (resetState env) hpad),
      min_eq_right (sizesMaxY_nonneg env (resetState env) hpad)]

/-- Witness for C10: resetting from the concrete state stW under envW. -/
theorem reset_initial_state_witness :
    0 ≤ pad envW ∧
      ((reset envW stW).scale = envW.options.initialScale ∧
        (reset envW stW).x = 0 ∧ (reset envW stW).y = 0 ∧
        (reset envW stW).rotation = 0) := by
  have hpad : 0 ≤ pad envW := by
    norm_num [pad, contW, contH, envW, defaultOptions]
  exact ⟨hpad, reset_initial_state envW stW hpad⟩

/-- Helper: on a non-stopped tick the new scale of animateKinetic is
scale + vScale hard-limited into [minScale, maxScale] (core.ts lines
198-202). -/
theorem kineticTick_scale_of_not_stop (env : PZEnv) (st : PZState)
    (h : ¬ kineticStop st) :
    (kineticTick env st).scale =
      if env.options.maxScale <
          (if st.scale + st.velocityScale < env.options.minScale then
            env.options.minScale
          else st.scale + st.velocityScale) then
        env.options.maxScale
      else
        if st.scale + st.velocityScale < env.options.minScale then
          env.options.minScale
        else st.scale + st.velocityScale := by
  unfold kineticTick
  rw [if_neg h]
  rfl

/-- Claim C4 (amended): with a configuration satisfying
0 < minScale ≤ initialScale ≤ maxScale, the invariant
minScale ≤ scale ≤ maxScale holds in the constructed state and is preserved
by every wheel, non-degenerate pinch (start inter-finger distance ≠ 0),
double-tap, kinetic-tick, reset, rotate, setTransform, moveTo, moveBy and
zoomTo operation — hence in every state reachable through such operations.
Both restrictions are genuinely needed: construction and reset copy
initialScale without clamping (see the counterexample), and a degenerate
pinch with coincident fingers at the move computes 0/0 = NaN and writes it
into scale with no guard (the C6 analysis), escaping the invariant. -/
theorem scale_invariant_reachable (env : PZEnv)
    (h0 : 0 < env.options.minScale)
    (h1 : env.options.minScale ≤ env.options.initialScale)
    (h2 : env.options.initialScale ≤ env.options.maxScale)
    (st : PZState) (hr : Reachable env st) :
    env.options.minScale ≤ st.scale ∧ st.scale ≤ env.options.maxScale := by
  have hmm : env.options.minScale ≤ env.options.maxScale := h1.trans h2
  induction hr with
  | init => exact ⟨h1, h2⟩
  | wheel st deltaY cx cy _ ih =>
      simp only [handleWheel]
      split_ifs with h
      · exact ih
      · simpa using clampScale_mem env hmm _
  | pinch st sess t1x t1y t2x t2y _ _ ih =>
      have hsc : (pinchMove env st sess t1x t1y t2x t2y).scale =
          clampScale env (sess.touchStartScale *
            (getDistance t1x t1y t2x t2y / sess.touchStartDistance) *
            env.options.pinchSpeed) := by
        simp [pinchMove]
      rw [hsc]
      exact clampScale_mem env hmm _
  | doubleTapOp st cx cy _ ih =>
      have hsc : (doubleTap env st cx cy).scale =
          min (st.scale * (3 / 2)) env.options.maxScale := by
        simp [doubleTap]
      rw [hsc]
      refine ⟨le_min ?_ hmm, min_le_right _ _⟩
      nlinarith [ih.1, h0]
  | kinetic st _ ih =>
      by_cases h : kineticStop st
      · have he : kineticTick env st = applyTransform env st := by
          unfold kineticTick
          rw [if_pos h]
        rw [he]
        simpa using ih
      · rw [kineticTick_scale_of_not_stop env st h]
        by_cases hA : st.scale + st.velocityScale < env.options.minScale
        · rw [if_pos hA]
          by_cases hB : env.options.maxScale < env.options.minScale
          · rw [if_pos hB]
            exact ⟨hmm, le_refl _⟩
          · rw [if_neg hB]
            exact ⟨le_refl _, hmm⟩
        · rw [if_neg hA]
          by_cases hB : env.options.maxScale < st.scale + st.velocityScale
          · rw [if_pos hB]
            exact ⟨hmm, le_refl _⟩
          · rw [if_neg hB]
            push_neg at hA hB
            exact ⟨hA, hB⟩
  | resetOp st _ ih => exact ⟨h1, h2⟩
  | rotateOp st deg _ ih => simpa [rotate] using ih
  | setTransformOp st os ox oy orot _ ih =>
      cases os with
      | none => cases ox <;> cases oy <;> cases orot <;> simpa [setTransform] using ih
      | some s =>
          cases ox <;> cases oy <;> cases orot <;>
            simpa [setTransform] using clampScale_mem env hmm s
  | moveToOp st tx ty _ ih => simpa [moveTo] using ih
  | moveByOp st dx dy _ ih => simpa [moveBy] using ih
  | zoomToOp st s opx opy _ ih =>
      simp only [zoomTo]
      split_ifs with h
      · exact ih
      · simpa using clampScale_mem env hmm s

/-- Counterexample to C4 as stated: constructing with options
initialScale = 10 (all else default, so maxScale = 3) yields a state whose
scale is 10 > maxScale — the constructor copies initialScale without
clamping. -/
theorem scale_invariant_counterexample :
    (initialState envBad).scale = 10 ∧ envBad.options.maxScale = 3 ∧
      ¬ ((initialState envBad).scale ≤ envBad.options.maxScale) := by
  have e1 : (initialState envBad).scale = 10 := rfl
  have e2 : envBad.options.maxScale = 3 := rfl
  refine ⟨e1, e2, ?_⟩
  rw [e1, e2]
  norm_num

/-- Witness for the amended C4: the default configuration satisfies the
hypotheses, and the state reached from construction by a non-degenerate
pinch move (start distance 10 ≠ 0) satisfies the invariant. -/
theorem scale_invariant_reachable_witness :
    0 < envW.options.minScale ∧
      envW.options.minScale ≤ envW.options.initialScale ∧
      envW.options.initialScale ≤ envW.options.maxScale ∧
      sessW.touchStartDistance ≠ 0 ∧
      (envW.options.minScale ≤
          (pinchMove envW (initialState envW) sessW 0 0 10 0).scale ∧
        (pinchMove envW (initialState envW) sessW 0 0 10 0).scale ≤
          envW.options.maxScale) := by
  have h0 : 0 < envW.options.minScale := by norm_num [envW, defaultOptions]
  have h1 : envW.options.minScale ≤ envW.options.initialScale := by
    norm_num [envW, defaultOptions]
  have h2 : envW.options.initialScale ≤ envW.options.maxScale := by
    norm_num [envW, defaultOptions]
  have hnd : sessW.touchStartDistance ≠ 0 := by
    show getDistance 0 0 10 0 ≠ 0
    unfold getDistance
    rw [show ((10:ℝ) - 0) ^ 2 + ((0:ℝ) - 0) ^ 2 = 10 ^ 2 by norm_num,
      Real.sqrt_sq (by norm_num : (0:ℝ) ≤ 10)]
    norm_num
  exact ⟨h0, h1, h2, hnd, scale_invariant_reachable envW h0 h1 h2 _
    (Reachable.pinch _ sessW 0 0 10 0 hnd Reachable.init)⟩

/-- Helper: on a non-stopped tick each velocity component is multiplied by
friction (core.ts lines 208-210). -/
theorem kineticTick_velocity_of_not_stop (env : PZEnv) (st : PZState)
    (h : ¬ kineticStop st) :
    (kineticTick env st).velocityX = st.velocityX * env.options.friction ∧
      (kineticTick env st).velocityY = st.velocityY * env.options.friction ∧
      (kineticTick env st).velocityScale = st.velocityScale * env.options.friction := by
  unfold kineticTick
  rw [if_neg h]
  exact ⟨rfl, rfl, rfl⟩

/-- Helper: on the stop branch the tick is exactly the trailing
applyTransform (core.ts lines 189-194). -/
theorem kineticTick_of_stop (env : PZEnv) (st : PZState) (h : kineticStop st) :
    kineticTick env st = applyTransform env st := by
  unfold kineticTick
  rw [if_pos h]

/-- Helper: applyTransform does not touch the velocities, so it preserves
the stop condition. -/
theorem kineticStop_applyTransform (env : PZEnv) (st : PZState) :
    kineticStop (applyTransform env st) ↔ kineticStop st := by
  unfold kineticStop
  simp

/-- Helper: after n kinetic ticks either the run has stopped or each
velocity magnitude is the initial one scaled by friction^n. -/
theorem kinetic_iterate_velocity (env : PZEnv) (st : PZState)
    (hf0 : 0 ≤ env.options.friction) (n : ℕ) :
    kineticStop ((kineticTick env)^[n] st) ∨
      (|((kineticTick env)^[n] st).velocityX| =
          |st.velocityX| * env.options.friction ^ n ∧
        |((kineticTick env)^[n] st).velocityY| =
          |st.velocityY| * env.options.friction ^ n ∧
        |((kineticTick env)^[n] st).velocityScale| =
          |st.velocityScale| * env.options.friction ^ n) := by
  induction n with
  | zero => right; simp
  | succ n ih =>
      rw [Function.iterate_succ_apply']
      by_cases hstop : kineticStop ((kineticTick env)^[n] st)
      · left
        rw [kineticTick_of_stop env _ hstop, kineticStop_applyTransform]
        exact hstop
      · rcases ih with h | ⟨hx, hy, hs⟩
        · exact absurd h hstop
        · right
          obtain ⟨ex, ey, es⟩ := kineticTick_velocity_of_not_stop env _ hstop
          refine ⟨?_, ?_, ?_⟩
          · rw [ex, abs_mul, abs_of_nonneg hf0, hx]; ring
          · rw [ey, abs_mul, abs_of_nonneg hf0, hy]; ring
          · rw [es, abs_mul, abs_of_nonneg hf0, hs]; ring

/-- Helper: a geometric decay with ratio in [0, 1] eventually pushes
|v| · f^n under any positive threshold reached at exponent m ≤ n. -/
theorem decay_bound (f : ℝ) (hf0 : 0 ≤ f) (hf1 : f ≤ 1) (v c : ℝ) (m n : ℕ)
    (hmn : m ≤ n) (h : f ^ m < c / (|v| + 1)) : |v| * f ^ n < c := by
  have h1 : (0:ℝ) < |v| + 1 := by positivity
  have h2 : f ^ n ≤ f ^ m := pow_le_pow_of_le_one hf0 hf1 hmn
  have h3 : (|v| + 1) * f ^ m < c := by
    have := (lt_div_iff h1).mp h
    linarith [this, mul_comm (f ^ m) (|v| + 1)]
  have h4 : |v| * f ^ n ≤ (|v| + 1) * f ^ m := by
    calc |v| * f ^ n ≤ |v| * f ^ m :=
          mul_le_mul_of_nonneg_left h2 (abs_nonneg v)
      _ ≤ (|v| + 1) * f ^ m :=
          mul_le_mul_of_nonneg_right (by linarith [abs_nonneg v]) (pow_nonneg hf0 m)
  linarith

/-- Claim C8 (amended): for 0 < friction < 1, each kinetic tick taken
before the stop condition multiplies every velocity magnitude by exactly
friction (hence strictly decreases it whenever it is nonzero, while a zero
component stays zero); a tick taken at the stop condition is exactly the
stop branch, which leaves the state as applyTransform does; and from any
start state the run reaches the stop condition |vx| < 0.5 ∧ |vy| < 0.5 ∧
|vScale| < 0.001 after finitely many ticks. -/
theorem kinetic_decay_terminates (env : PZEnv) (s st : PZState)
    (hf0 : 0 < env.options.friction) (hf1 : env.options.friction < 1) :
    (¬ kineticStop s →
      (|(kineticTick env s).velocityX| = env.options.friction * |s.velocityX| ∧
        |(kineticTick env s).velocityY| = env.options.friction * |s.velocityY| ∧
        |(kineticTick env s).velocityScale| =
          env.options.friction * |s.velocityScale|) ∧
      (s.velocityX ≠ 0 → |(kineticTick env s).velocityX| < |s.velocityX|) ∧
      (s.velocityY ≠ 0 → |(kineticTick env s).velocityY| < |s.velocityY|) ∧
      (s.velocityScale ≠ 0 →
        |(kineticTick env s).velocityScale| < |s.velocityScale|)) ∧
    (kineticStop s → kineticTick env s = applyTransform env s) ∧
    (∃ n, kineticStop ((kineticTick env)^[n] st)) := by
  refine ⟨fun h => ?_, kineticTick_of_stop env s, ?_⟩
  · obtain ⟨ex, ey, es⟩ := kineticTick_velocity_of_not_stop env s h
    have ratio : ∀ v : ℝ, |v * env.options.friction| = env.options.friction * |v| := by
      intro v
      rw [abs_mul, abs_of_nonneg hf0.le, mul_comm]
    have strict : ∀ v : ℝ, v ≠ 0 → env.options.friction * |v| < |v| := by
      intro v hv
      have := mul_lt_mul_of_pos_right hf1 (abs_pos.mpr hv)
      linarith
    refine ⟨⟨by rw [ex, ratio], by rw [ey, ratio], by rw [es, ratio]⟩,
      fun hv => ?_, fun hv => ?_, fun hv => ?_⟩
    · rw [ex, ratio]; exact strict _ hv
    · rw [ey, ratio]; exact strict _ hv
    · rw [es, ratio]; exact strict _ hv
  · obtain ⟨n1, hn1⟩ := exists_pow_lt_of_lt_one
      (show (0:ℝ) < (1/2) / (|st.velocityX| + 1) by positivity) hf1
    obtain ⟨n2, hn2⟩ := exists_pow_lt_of_lt_one
      (show (0:ℝ) < (1/2) / (|st.velocityY| + 1) by positivity) hf1
    obtain ⟨n3, hn3⟩ := exists_pow_lt_of_lt_one
      (show (0:ℝ) < (1/1000) / (|st.velocityScale| + 1) by positivity) hf1
    refine ⟨max n1 (max n2 n3), ?_⟩
    rcases kinetic_iterate_velocity env st hf0.le (max n1 (max n2 n3)) with h | ⟨hx, hy, hs⟩
    · exact h
    · refine ⟨?_, ?_, ?_⟩
      · rw [hx]
        exact decay_bound _ hf0.le hf1.le _ _ n1 _ (le_max_left _ _) hn1
      · rw [hy]
        exact decay_bound _ hf0.le hf1.le _ _ n2 _
          (le_trans (le_max_left _ _) (le_max_right _ _)) hn2
      · rw [hs]
        exact decay_bound _ hf0.le hf1.le _ _ n3 _
          (le_trans (le_max_right _ _) (le_max_right _ _)) hn3

/-- Counterexample to C8 as stated: in the run started from s8b
(vx = 0, vy = 10) the tick is a genuine moving tick (the stop condition
fails), yet |vx| does not strictly decrease — it stays 0 — so the velocity
magnitudes do not form a strictly decreasing sequence. -/
theorem kinetic_strict_decrease_counterexample :
    ¬ kineticStop s8b ∧ (kineticTick envW s8b).velocityX = 0 ∧
      s8b.velocityX = 0 ∧
      ¬ (|(kineticTick envW s8b).velocityX| < |s8b.velocityX|) := by
  have h10 : ¬ (|(10:ℝ)| < 1/2) := by
    rw [abs_of_pos (by norm_num : (0:ℝ) < 10)]
    norm_num
  have hns : ¬ kineticStop s8b := fun hcon => h10 hcon.2.1
  have ex : (kineticTick envW s8b).velocityX = 0 := by
    rw [(kineticTick_velocity_of_not_stop envW s8b hns).1]
    show (0:ℝ) * envW.options.friction = 0
    rw [zero_mul]
  refine ⟨hns, ex, rfl, ?_⟩
  rw [ex, show s8b.velocityX = 0 from rfl]
  exact lt_irrefl _

/-- Witness for the amended C8 at the concrete state s8a (vx = 10): the
tick multiplies |vx| by friction, strictly decreases it, and the run
terminates. -/
theorem kinetic_decay_terminates_witness :
    0 < envW.options.friction ∧ envW.options.friction < 1 ∧
      ¬ kineticStop s8a ∧ s8a.velocityX ≠ 0 ∧
      |(kineticTick envW s8a).velocityX| = envW.options.friction * |s8a.velocityX| ∧
      |(kineticTick envW s8a).velocityX| < |s8a.velocityX| ∧
      (∃ n, kineticStop ((kineticTick envW)^[n] s8a)) := by
  have hf0 : 0 < envW.options.friction := by norm_num [envW, defaultOptions]
  have hf1 : envW.options.friction < 1 := by norm_num [envW, defaultOptions]
  have h10 : ¬ (|(10:ℝ)| < 1/2) := by
    rw [abs_of_pos (by norm_num : (0:ℝ) < 10)]
    norm_num
  have hns : ¬ kineticStop s8a := fun hcon => h10 hcon.1
  have hv : s8a.velocityX ≠ 0 := by
    show (10:ℝ) ≠ 0
    norm_num
  have h := kinetic_decay_terminates envW s8a s8a hf0 hf1
  exact ⟨hf0, hf1, hns, hv, (h.1 hns).1.1, (h.1 hns).2.1 hv, h.2.2⟩

/-- Helper: for an un-normalized rotation r ≥ -180 the JavaScript
normalization ((r + 180) % 360) - 180 lands in [-180, 180). -/
theorem normalizeRotation_mem (r : ℝ) (h : -180 ≤ r) :
    -180 ≤ normalizeRotation r ∧ normalizeRotation r < 180 := by
  have ha : 0 ≤ r + 180 := by linarith
  have hdiv : 0 ≤ (r + 180) / 360 := by positivity
  have ht : jsTrunc ((r + 180) / 360) = ⌊(r + 180) / 360⌋ := if_pos hdiv
  have key : jsRem (r + 180) 360 = 360 * Int.fract ((r + 180) / 360) := by
    rw [jsRem, ht, Int.fract]
    field_simp
  have h0 : 0 ≤ Int.fract ((r + 180) / 360) := Int.fract_nonneg _
  have h1 : Int.fract ((r + 180) / 360) < 1 := Int.fract_lt_one _
  have h2 : (0:ℝ) ≤ 360 * Int.fract ((r + 180) / 360) := by positivity
  have h3 : 360 * Int.fract ((r + 180) / 360) < 360 := by nlinarith
  unfold normalizeRotation
  rw [key]
  constructor <;> linarith

/-- Claim C5 (amended): after a pinch touch-move with enableRotation on,
the rotation field is ((r + 180) % 360) - 180 for the un-normalized target
r = startRotation + angleDelta·180/π; whenever r ≥ -180 this lies in the
half-open interval [-180, 180) (not (-180, 180] as claimed, and for
r < -180 the JavaScript remainder leaves it below -180 entirely). -/
theorem pinch_rotation_range_amended (env : PZEnv) (st : PZState)
    (sess : PinchSession) (t1x t1y t2x t2y : ℝ)
    (hrot : env.options.enableRotation = true)
    (h : -180 ≤ sess.initialRotation +
      (getAngle t1x t1y t2x t2y - sess.touchStartAngle) * (180 / Real.pi)) :
    -180 ≤ (pinchMove env st sess t1x t1y t2x t2y).rotation ∧
      (pinchMove env st sess t1x t1y t2x t2y).rotation < 180 := by
  have hr : (pinchMove env st sess t1x t1y t2x t2y).rotation =
      normalizeRotation (sess.initialRotation +
        (getAngle t1x t1y t2x t2y - sess.touchStartAngle) * (180 / Real.pi)) := by
    simp [pinchMove, hrot]
  rw [hr]
  exact normalizeRotation_mem _ h

/-- Counterexample to C5 as stated: a pinch starting at rotation 180 whose
fingers have not rotated (angle delta 0) is normalized to -180, which lies
outside the claimed half-open interval (-180, 180]. -/
theorem pinch_rotation_range_counterexample :
    (pinchMove envW stW sessC5 0 0 10 0).rotation = -180 ∧
      ¬ (-180 < (pinchMove envW stW sessC5 0 0 10 0).rotation) := by
  have hrot : envW.options.enableRotation = true := rfl
  have hr : (pinchMove envW stW sessC5 0 0 10 0).rotation =
      normalizeRotation (sessC5.initialRotation +
        (getAngle 0 0 10 0 - sessC5.touchStartAngle) * (180 / Real.pi)) := by
    simp [pinchMove, hrot]
  have harg : sessC5.initialRotation +
      (getAngle 0 0 10 0 - sessC5.touchStartAngle) * (180 / Real.pi) = 180 := by
    show (180:ℝ) + (getAngle 0 0 10 0 - getAngle 0 0 10 0) * (180 / Real.pi) = 180
    rw [sub_self, zero_mul, add_zero]
  have hone : ((180:ℝ) + 180) / 360 = 1 := by norm_num
  have hnorm : normalizeRotation 180 = -180 := by
    unfold normalizeRotation jsRem jsTrunc
    rw [hone]
    norm_num
  rw [hr, harg, hnorm]
  exact ⟨rfl, by norm_num⟩

/-- Witness for the amended C5: a pinch starting at rotation 30 with angle
delta 0 stays in [-180, 180). -/
theorem pinch_rotation_range_amended_witness :
    envW.options.enableRotation = true ∧
      -180 ≤ sessW.initialRotation +
        (getAngle 0 0 10 0 - sessW.touchStartAngle) * (180 / Real.pi) ∧
      (-180 ≤ (pinchMove envW stW sessW 0 0 10 0).rotation ∧
        (pinchMove envW stW sessW 0 0 10 0).rotation < 180) := by
  have harg : sessW.initialRotation +
      (getAngle 0 0 10 0 - sessW.touchStartAngle) * (180 / Real.pi) = 30 := by
    show (30:ℝ) + (getAngle 0 0 10 0 - getAngle 0 0 10 0) * (180 / Real.pi) = 30
    rw [sub_self, zero_mul, add_zero]
  have h : -180 ≤ sessW.initialRotation +
      (getAngle 0 0 10 0 - sessW.touchStartAngle) * (180 / Real.pi) := by
    rw [harg]
    norm_num
  exact ⟨rfl, h, pinch_rotation_range_amended envW stW sessW 0 0 10 0 rfl h⟩

/-- Claim C6 (code evaluation at the failing input): a two-finger gesture
whose fingers start at the same point records touchStartDistance = 0
(events.ts lines 330-333); the next pinch move divides by it with no
epsilon guard (events.ts line 377), producing Infinity, which clampScale
collapses to maxScale = 3 — the transform scale is overwritten with 3
instead of being left at its last valid value 1.  (When the fingers are
still coincident at the move, 0/0 = NaN is written instead.) -/
theorem pinch_zero_distance_writes_maxScale :
    getDistance 100 100 100 100 = 0 ∧
      pinchScaleJS envW 1 (getDistance 100 100 100 100) 100 100 100 102 =
        JSVal.fin 3 ∧
      (3:ℝ) ≠ 1 := by
  have hd0 : getDistance 100 100 100 100 = 0 := by
    unfold getDistance
    norm_num
  have hd2 : getDistance 100 100 100 102 = 2 := by
    unfold getDistance
    rw [show ((100:ℝ) - 100) ^ 2 + ((102:ℝ) - 100) ^ 2 = 2 ^ 2 by norm_num]
    exact Real.sqrt_sq (by norm_num)
  have e1 : jsDiv (JSVal.fin 2) (JSVal.fin 0) = JSVal.posInf := by
    simp [jsDiv]
  have e2 : jsMul (JSVal.fin 1) JSVal.posInf = JSVal.posInf := by
    norm_num [jsMul]
  have e3 : jsMul JSVal.posInf (JSVal.fin envW.options.pinchSpeed) = JSVal.posInf := by
    show jsMul JSVal.posInf (JSVal.fin 1) = JSVal.posInf
    norm_num [jsMul]
  have e4 : jsMax (JSVal.fin envW.options.minScale) JSVal.posInf = JSVal.posInf := by
    simp [jsMax]
  have e5 : jsMin (JSVal.fin envW.options.maxScale) JSVal.posInf =
      JSVal.fin envW.options.maxScale := by
    simp [jsMin]
  refine ⟨hd0, ?_, by norm_num⟩
  simp only [pinchScaleJS]
  rw [hd0, hd2, e1, e2, e3, e4, e5]
  rfl
